import Mathlib

/-!
# Verification of the Skribidi MSDF glyph rasterizer (`src/skb_msdf.cpp`)

A shallow embedding of `skb_rasterizer_draw_msdf_glyph` and the HarfBuzz
draw callbacks that build an msdfgen shape.  C `float`/`double` arithmetic
is modelled over `ℚ`; the external msdfgen primitives (`Shape::normalize`,
`edgeColoringSimple`, `generateMSDF`) are abstracted as a record of
functions (`MsdfLib`), exactly as the specification treats them: opaque
correct primitives that the rasterizer drives.  Byte buffers are modelled
as total functions `ℕ → ℕ`, writes as pointwise updates.
-/

namespace Skb

/-- A 2-D point in font units (msdfgen `Point2`, default-constructed to the
origin). -/
abbrev Point := ℚ × ℚ

/-- An msdfgen edge segment: linear, quadratic or cubic, carrying its control
points in font units (built by `EdgeHolder(p0, p1)`, `EdgeHolder(p0, c1, p1)`,
`EdgeHolder(p0, c1, c2, p1)`). -/
inductive Edge where
  | linear (p0 p1 : Point)
  | quadratic (p0 c1 p1 : Point)
  | cubic (p0 c1 c2 p1 : Point)
  deriving DecidableEq, Repr

/-- An msdfgen `Contour`: an ordered list of edges. -/
abbrev Contour := List Edge

/-- An msdfgen `Shape`: its ordered list of contours. -/
abbrev Shape := List Contour

/-- A shape after `edgeColoringSimple`: every edge carries a channel mask
(msdfgen `EdgeColor`). -/
abbrev ColoredShape := List (List (Edge × ℕ))

/-- Apply `f` to the last element of a list (models mutating through the
`ctx->contour` pointer, which aliases the last contour added to the shape). -/
def updateLast (f : α → α) : List α → List α
  | [] => []
  | [a] => [f a]
  | a :: b :: rest => a :: updateLast f (b :: rest)

/-- Structure `MsdfBuildContext`: the shape under construction (`ctx->shape`), whether
`ctx->contour` is non-null (it always aliases the last contour of the shape),
and `ctx->lastPoint`. -/
structure MsdfBuildContext where
  contours : List Contour
  contourOpen : Bool
  lastPoint : Point
  deriving DecidableEq, Repr

/-- Initial build context: `ctx.contour = nullptr`, shape empty, `lastPoint`
default-constructed to the origin. -/
def initBuildContext : MsdfBuildContext :=
  { contours := [], contourOpen := false, lastPoint := (0, 0) }

/-- Callback `msdf_move_to`: `ctx->contour = &ctx->shape->addContour();
ctx->lastPoint = Point2(to_x, to_y);` — unconditionally appends a fresh empty
contour and records the new current point. -/
def msdf_move_to (ctx : MsdfBuildContext) (to_x to_y : ℚ) : MsdfBuildContext :=
  { contours := ctx.contours ++ [[]]
    contourOpen := true
    lastPoint := (to_x, to_y) }

/-- Callback `msdf_line_to`: ignored when `ctx->contour` is null; otherwise appends a
linear edge from `lastPoint` to the endpoint and updates `lastPoint`. -/
def msdf_line_to (ctx : MsdfBuildContext) (to_x to_y : ℚ) : MsdfBuildContext :=
  if ctx.contourOpen = false then ctx
  else
    { contours := updateLast (· ++ [Edge.linear ctx.lastPoint (to_x, to_y)]) ctx.contours
      contourOpen := true
      lastPoint := (to_x, to_y) }

/-- Callback `msdf_quadratic_to`: ignored when `ctx->contour` is null; otherwise appends
a quadratic edge (lastPoint, control, endpoint) and updates `lastPoint`. -/
def msdf_quadratic_to (ctx : MsdfBuildContext) (c1x c1y to_x to_y : ℚ) : MsdfBuildContext :=
  if ctx.contourOpen = false then ctx
  else
    { contours :=
        updateLast (· ++ [Edge.quadratic ctx.lastPoint (c1x, c1y) (to_x, to_y)]) ctx.contours
      contourOpen := true
      lastPoint := (to_x, to_y) }

/-- Callback `msdf_cubic_to`: ignored when `ctx->contour` is null; otherwise appends a
cubic edge (lastPoint, two controls, endpoint) and updates `lastPoint`. -/
def msdf_cubic_to (ctx : MsdfBuildContext) (c1x c1y c2x c2y to_x to_y : ℚ) : MsdfBuildContext :=
  if ctx.contourOpen = false then ctx
  else
    { contours :=
        updateLast
          (· ++ [Edge.cubic ctx.lastPoint (c1x, c1y) (c2x, c2y) (to_x, to_y)]) ctx.contours
      contourOpen := true
      lastPoint := (to_x, to_y) }

/-- Callback `msdf_close_path`: contours are implicitly closed in msdfgen, so this is a
no-op. -/
def msdf_close_path (ctx : MsdfBuildContext) : MsdfBuildContext := ctx

/-- A path command of the HarfBuzz glyph-outline draw protocol, in font
units. -/
inductive PathCmd where
  | moveTo (x y : ℚ)
  | lineTo (x y : ℚ)
  | quadTo (cx cy x y : ℚ)
  | cubicTo (c1x c1y c2x c2y x y : ℚ)
  | closePath
  deriving DecidableEq, Repr

/-- Dispatch one draw event to the registered callback. -/
def applyCmd (ctx : MsdfBuildContext) : PathCmd → MsdfBuildContext
  | .moveTo x y => msdf_move_to ctx x y
  | .lineTo x y => msdf_line_to ctx x y
  | .quadTo cx cy x y => msdf_quadratic_to ctx cx cy x y
  | .cubicTo c1x c1y c2x c2y x y => msdf_cubic_to ctx c1x c1y c2x c2y x y
  | .closePath => msdf_close_path ctx

/-- Replay a command stream through the callbacks (what
`hb_font_draw_glyph` does with the registered draw funcs). -/
def runCmds (cmds : List PathCmd) (ctx : MsdfBuildContext) : MsdfBuildContext :=
  cmds.foldl applyCmd ctx

/-- An `skb_font_t` as the rasterizer consumes it: `hb_font_draw_glyph`
replays a per-glyph command stream, and `font->upem_scale` converts font
units to em units. -/
structure Font where
  glyphCommands : ℕ → List PathCmd
  upem_scale : ℚ

/-- The shape built for a glyph: replay the glyph's outline through the five
callbacks starting from the null-contour context. -/
def buildGlyphShape (font : Font) (glyph_id : ℕ) : Shape :=
  (runCmds (font.glyphCommands glyph_id) initBuildContext).contours

/-- An `skb_image_t` target descriptor. -/
structure Image where
  width : ℕ
  height : ℕ
  stride_bytes : ℤ
  bpp : ℕ
  buffer : ℕ → ℕ

/-- An msdfgen `Projection`: per-axis scale and translate, applied as
`output = scale * (coord + translate)`. -/
structure Projection where
  scale : ℚ × ℚ
  translate : ℚ × ℚ
  deriving DecidableEq, Repr

/-- Apply an msdfgen projection to a font-unit coordinate:
`pixel = scale * (coord + translate)`, per axis. -/
def Projection.project (p : Projection) (coord : Point) : Point :=
  (p.scale.1 * (coord.1 + p.translate.1), p.scale.2 * (coord.2 + p.translate.2))

/-- The external msdfgen primitives the rasterizer drives, abstracted: shape
normalization, `edgeColoringSimple` (shape, seed), and `generateMSDF`
returning the raw float bitmap as a sample function (width, height, colored
shape, projection, range, then x y channel). -/
structure MsdfLib where
  normalize : Shape → Shape
  edgeColoringSimple : Shape → ℚ → ColoredShape
  generateMSDF : ℕ → ℕ → ColoredShape → Projection → ℚ → ℕ → ℕ → Fin 3 → ℚ

/-- Modelled from the spec: `skb_clampf` lives in `skb_common.h`, which is
not under `src/`; the spec's quantization formula reads
`clamp(0.5 + r*0.5, 0, 1)`, i.e. clamp `v` into `[lo, hi]`. -/
def skb_clampf (v lo hi : ℚ) : ℚ := min (max v lo) hi

/-- Quantize one raw MSDF sample to a byte:
`(uint8_t)(skb_clampf(0.5f + r*0.5f, 0.0f, 1.0f) * 255.0f + 0.5f)`
(the cast truncates toward zero; the operand is nonnegative, so it is a
floor). -/
def quantizeByte (r : ℚ) : ℕ :=
  (⌊skb_clampf (1/2 + r * (1/2)) 0 1 * 255 + 1/2⌋).toNat

/-- Scale `font_size * font->upem_scale`: the font-unit → pixel scale. -/
def msdfScale (font_size upem_scale : ℚ) : ℚ := font_size * upem_scale

/-- The projection built by the rasterizer:
`Projection(Vector2(scale, -scale), Vector2(offset_x / scale, -offset_y / scale))`. -/
def msdfProjection (scale offset_x offset_y : ℚ) : Projection :=
  { scale := (scale, -scale)
    translate := (offset_x / scale, -offset_y / scale) }

/-- Constant `double pxRange = 4.0;` — pixels of distance gradient around edges. -/
def msdfPxRange : ℚ := 4

/-- Range `msdfgen::Range(pxRange / scale)` — the distance range in font units. -/
def msdfRange (scale : ℚ) : ℚ := msdfPxRange / scale

/-- Stride `int row_stride = target->stride_bytes > 0 ? target->stride_bytes
: target->width * 3;` -/
def rowStride (t : Image) : ℕ :=
  if 0 < t.stride_bytes then t.stride_bytes.toNat else t.width * 3

/-- Write byte `v` at offset `i` of buffer `b`. -/
def updateByte (i v : ℕ) (b : ℕ → ℕ) : ℕ → ℕ :=
  fun j => if j = i then v else b j

/-- Write the 3 channel bytes of pixel `(x, y)` at
`y * row_stride + x * 3 + {0,1,2}` (`dst[0] = …; dst[1] = …; dst[2] = …;`). -/
def writePixel (rs x y : ℕ) (v : Fin 3 → ℕ) (b : ℕ → ℕ) : ℕ → ℕ :=
  updateByte (y * rs + x * 3 + 2) (v 2)
    (updateByte (y * rs + x * 3 + 1) (v 1)
      (updateByte (y * rs + x * 3) (v 0) b))

/-- The inner `for (x = 0; x < w; x++)` loop of the copy-out phase: write
pixels `(0, y) … (w-1, y)` in ascending order. -/
def writeRow (rs y : ℕ) (v : ℕ → Fin 3 → ℕ) (b : ℕ → ℕ) : ℕ → ℕ → ℕ
  | 0 => b
  | w + 1 => writePixel rs w y (v w) (writeRow rs y v b w)

/-- The outer `for (y = 0; y < h; y++)` loop: write rows `0 … h-1` in
ascending order, each over `w` pixels. -/
def writeAll (rs w : ℕ) (v : ℕ → ℕ → Fin 3 → ℕ) (b : ℕ → ℕ) : ℕ → ℕ → ℕ
  | 0 => b
  | h + 1 => writeRow rs h (fun x => v x h) (writeAll rs w v b h) w

/-- Fill `memset(target->buffer, 0, n)`: zero the first `n` bytes. -/
def memsetZero (n : ℕ) (b : ℕ → ℕ) : ℕ → ℕ :=
  fun i => if i < n then 0 else b i

/-- The raw generated sample for pixel `(x, y)`, channel `c`: the shape is
normalized, edge-colored with seed `3.0`, and fed to `generateMSDF` with the
rasterizer's projection and range. -/
def msdfRaw (lib : MsdfLib) (font : Font) (glyph_id : ℕ)
    (font_size offset_x offset_y : ℚ) (t : Image) (x y : ℕ) (c : Fin 3) : ℚ :=
  let scale := msdfScale font_size font.upem_scale
  lib.generateMSDF t.width t.height
    (lib.edgeColoringSimple (lib.normalize (buildGlyphShape font glyph_id)) 3)
    (msdfProjection scale offset_x offset_y) (msdfRange scale) x y c

/-- The non-empty-shape branch of the rasterizer: generate the field and
quantize it into the target buffer, honoring the row stride. -/
def msdfGenerateBranch (lib : MsdfLib) (font : Font) (glyph_id : ℕ)
    (font_size offset_x offset_y : ℚ) (t : Image) : ℕ → ℕ :=
  writeAll (rowStride t) t.width
    (fun x y c => quantizeByte (msdfRaw lib font glyph_id font_size offset_x offset_y t x y c))
    t.buffer t.height

/-- Entry point `skb_rasterizer_draw_msdf_glyph`.  The result is the returned `bool`
paired with the target buffer contents after the call (`none` when no target
was supplied).  `rasterizer` and `temp_alloc` are accepted and cast to void;
`font` and `target` are nullable. -/
def skb_rasterizer_draw_msdf_glyph (lib : MsdfLib)
    (rasterizer temp_alloc : Option Unit) (glyph_id : ℕ)
    (font : Option Font) (font_size offset_x offset_y : ℚ)
    (target : Option Image) : Bool × Option (ℕ → ℕ) :=
  match font, target with
  | some f, some t =>
    if t.bpp ≠ 3 then (false, some t.buffer)
    else
      let shape := buildGlyphShape f glyph_id
      if shape.isEmpty then
        (true, some (memsetZero (t.width * t.height * 3) t.buffer))
      else
        (true, some (msdfGenerateBranch lib f glyph_id font_size offset_x offset_y t))
  | _, _ => (false, target.map Image.buffer)

/-- Is this command a `MoveTo`? -/
def isMoveTo : PathCmd → Bool
  | .moveTo _ _ => true
  | _ => false

/-- Is this command a drawing command (`LineTo`, `QuadTo` or `CubicTo`)? -/
def isDraw : PathCmd → Bool
  | .lineTo _ _ => true
  | .quadTo _ _ _ _ => true
  | .cubicTo _ _ _ _ _ _ => true
  | _ => false

/-- Number of `MoveTo` commands in a stream. -/
def countMoveTo (cmds : List PathCmd) : ℕ := cmds.countP isMoveTo

/-! ## Concrete fixtures used to instantiate the theorems -/

/-- Color every edge of a shape white (`EdgeColor` 7), the msdfgen default. -/
def colorWhite (s : Shape) : ColoredShape := s.map (fun ctr => ctr.map (fun e => (e, 7)))

/-- A concrete msdfgen instance whose generator returns the constant
sample `1` (deep inside, in the rasterizer's sign convention). -/
def constOneLib : MsdfLib :=
  { normalize := id
    edgeColoringSimple := fun s _ => colorWhite s
    generateMSDF := fun _ _ _ _ _ _ _ _ => 1 }

/-- A concrete msdfgen instance whose generator returns `1` on row `0` and
`-1` on every other row. -/
def rowLib : MsdfLib :=
  { normalize := id
    edgeColoringSimple := fun s _ => colorWhite s
    generateMSDF := fun _ _ _ _ _ _ y _ => if y = 0 then 1 else -1 }

/-- A variant of `constOneLib` whose edge coloring agrees with it at seed `3`
but differs at every other seed. -/
def offSeedLib : MsdfLib :=
  { constOneLib with
    edgeColoringSimple := fun s q => if q = 3 then colorWhite s else [] }

/-- A font whose every glyph outline stream is empty. -/
def emptyFont : Font := { glyphCommands := fun _ => [], upem_scale := 1 }

/-- A font whose every glyph outline stream is a single `MoveTo` (one
zero-edge contour, no drawing commands). -/
def dotFont : Font := { glyphCommands := fun _ => [PathCmd.moveTo 0 0], upem_scale := 1 }

/-- A font emitting two `MoveTo`s and a `ClosePath`, but no drawing
commands. -/
def twoMoveFont : Font :=
  { glyphCommands := fun _ => [PathCmd.moveTo 0 0, PathCmd.closePath, PathCmd.moveTo 1 1]
    upem_scale := 1 }

/-- A font drawing a unit square with four `LineTo`s. -/
def squareFont : Font :=
  { glyphCommands := fun _ =>
      [PathCmd.moveTo 0 0, PathCmd.lineTo 1 0, PathCmd.lineTo 1 1,
       PathCmd.lineTo 0 1, PathCmd.lineTo 0 0, PathCmd.closePath]
    upem_scale := 1 }

/-- Target of 1×2 pixels with an overlapping row stride (2 < 3 = width*3), sentinel 7. -/
def tightTarget : Image :=
  { width := 1, height := 2, stride_bytes := 2, bpp := 3, buffer := fun _ => 7 }

/-- Target of 1×2 pixels with row stride 4 > 3 = width*3 (one padding byte per row),
sentinel 7. -/
def padTarget : Image :=
  { width := 1, height := 2, stride_bytes := 4, bpp := 3, buffer := fun _ => 7 }

/-- Target of 1×1 pixels with row stride 5, sentinel 7. -/
def smallTarget : Image :=
  { width := 1, height := 1, stride_bytes := 5, bpp := 3, buffer := fun _ => 7 }

/-- Target of 2×1 pixels with row stride 7, sentinel 9. -/
def wideTarget : Image :=
  { width := 2, height := 1, stride_bytes := 7, bpp := 3, buffer := fun _ => 9 }

/-- A target with 4 bytes per pixel (precondition violation). -/
def bpp4Target : Image :=
  { width := 2, height := 2, stride_bytes := 8, bpp := 4, buffer := fun _ => 7 }

/-! ## Helper lemmas on buffer writes -/

theorem updateByte_apply (i v : ℕ) (b : ℕ → ℕ) (j : ℕ) :
    updateByte i v b j = if j = i then v else b j := rfl

theorem writePixel_apply_ne (rs x y : ℕ) (v : Fin 3 → ℕ) (b : ℕ → ℕ) (j : ℕ)
    (h : ∀ c < 3, j ≠ y * rs + x * 3 + c) :
    writePixel rs x y v b j = b j := by
  have h0 := h 0 (by omega)
  have h1 := h 1 (by omega)
  have h2 := h 2 (by omega)
  simp only [writePixel, updateByte_apply]
  rw [if_neg h2, if_neg h1, if_neg (by omega)]

theorem writePixel_apply_channel (rs x y : ℕ) (v : Fin 3 → ℕ) (b : ℕ → ℕ) (c : Fin 3) :
    writePixel rs x y v b (y * rs + x * 3 + c) = v c := by
  simp only [writePixel, updateByte_apply]
  generalize y * rs + x * 3 = base
  fin_cases c <;> simp only [Fin.isValue, Fin.val_zero, Fin.val_one, Fin.val_two] <;>
    (split_ifs <;> first | rfl | omega)

theorem writeRow_apply_ne (rs y : ℕ) (v : ℕ → Fin 3 → ℕ) (b : ℕ → ℕ) (w j : ℕ)
    (h : ∀ x < w, ∀ c < 3, j ≠ y * rs + x * 3 + c) :
    writeRow rs y v b w j = b j := by
  induction w with
  | zero => rfl
  | succ w ih =>
    show writePixel rs w y (v w) (writeRow rs y v b w) j = b j
    rw [writePixel_apply_ne _ _ _ _ _ _ (h w (by omega))]
    exact ih fun x hx c hc => h x (by omega) c hc

theorem writeRow_apply_channel (rs y : ℕ) (v : ℕ → Fin 3 → ℕ) (b : ℕ → ℕ) (w x : ℕ)
    (c : Fin 3) (hx : x < w) :
    writeRow rs y v b w (y * rs + x * 3 + c) = v x c := by
  induction w with
  | zero => omega
  | succ w ih =>
    show writePixel rs w y (v w) (writeRow rs y v b w) (y * rs + x * 3 + c) = v x c
    rcases Nat.lt_or_ge x w with hxw | hxw
    · rw [writePixel_apply_ne]
      · exact ih hxw
      · intro c' hc'
        have hc3 := c.isLt
        omega
    · have hxw' : x = w := by omega
      subst hxw'
      exact writePixel_apply_channel rs x y (v x) (writeRow rs y v b x) c

/-- Rows are disjoint when the row stride is at least `3 * w`: a byte of row
`y` lies strictly before the start of any later row `y2`. -/
theorem row_addr_lt (rs w x c y y2 : ℕ) (hx : x < w) (hc : c < 3)
    (hw : 3 * w ≤ rs) (hy : y < y2) : y * rs + x * 3 + c < y2 * rs := by
  have h1 : y * rs + x * 3 + c < y * rs + rs := by omega
  have h2 : (y + 1) * rs ≤ y2 * rs := Nat.mul_le_mul_right rs (by omega)
  calc y * rs + x * 3 + c < y * rs + rs := h1
    _ = (y + 1) * rs := by ring
    _ ≤ y2 * rs := h2

theorem writeAll_apply_ne (rs w : ℕ) (v : ℕ → ℕ → Fin 3 → ℕ) (b : ℕ → ℕ) (h j : ℕ)
    (hj : ∀ y < h, ∀ x < w, ∀ c < 3, j ≠ y * rs + x * 3 + c) :
    writeAll rs w v b h j = b j := by
  induction h with
  | zero => rfl
  | succ h ih =>
    show writeRow rs h (fun x => v x h) (writeAll rs w v b h) w j = b j
    rw [writeRow_apply_ne _ _ _ _ _ _ (fun x hx c hc => hj h (by omega) x hx c hc)]
    exact ih fun y hy x hx c hc => hj y (by omega) x hx c hc

theorem writeAll_apply_channel (rs w : ℕ) (v : ℕ → ℕ → Fin 3 → ℕ) (b : ℕ → ℕ)
    (h x y : ℕ) (c : Fin 3) (hx : x < w) (hy : y < h) (hw : 3 * w ≤ rs) :
    writeAll rs w v b h (y * rs + x * 3 + c) = v x y c := by
  induction h with
  | zero => omega
  | succ h ih =>
    show writeRow rs h (fun x => v x h) (writeAll rs w v b h) w (y * rs + x * 3 + c) = v x y c
    rcases Nat.lt_or_ge y h with hyh | hyh
    · rw [writeRow_apply_ne]
      · exact ih hyh
      · intro x' hx' c' hc' heq
        have := row_addr_lt rs w x c y h hx c.isLt hw hyh
        omega
    · have hyh' : y = h := by omega
      subst hyh'
      exact writeRow_apply_channel rs y (fun x => v x y) (writeAll rs w v b y) w x c hx

/-- With a strict stride (`3 * w ≤ o < rs`), the padding byte at offset `o` of
any row is never written by the quantization loop. -/
theorem writeAll_apply_padding (rs w : ℕ) (v : ℕ → ℕ → Fin 3 → ℕ) (b : ℕ → ℕ)
    (h y o : ℕ) (ho1 : 3 * w ≤ o) (ho2 : o < rs) :
    writeAll rs w v b h (y * rs + o) = b (y * rs + o) := by
  apply writeAll_apply_ne
  intro y' hy' x hx c hc heq
  rcases Nat.lt_trichotomy y y' with hlt | heq' | hgt
  · have : y * rs + o < y' * rs := by
      have h2 : (y + 1) * rs ≤ y' * rs := Nat.mul_le_mul_right rs (by omega)
      have : y * rs + o < (y + 1) * rs := by
        have : (y + 1) * rs = y * rs + rs := by ring
        omega
      omega
    omega
  · subst heq'
    omega
  · have := row_addr_lt rs w x c y' y hx hc (by omega) hgt
    omega

/-! ## Helper lemmas on the rasterizer's branches -/

theorem rasterizer_nonempty_branch (lib : MsdfLib) (ra ta : Option Unit) (gid : ℕ)
    (f : Font) (fs ox oy : ℚ) (t : Image) (hbpp : t.bpp = 3)
    (hne : buildGlyphShape f gid ≠ []) :
    skb_rasterizer_draw_msdf_glyph lib ra ta gid (some f) fs ox oy (some t)
      = (true, some (msdfGenerateBranch lib f gid fs ox oy t)) := by
  simp [skb_rasterizer_draw_msdf_glyph, hbpp, List.isEmpty_iff, hne]

theorem rasterizer_empty_branch (lib : MsdfLib) (ra ta : Option Unit) (gid : ℕ)
    (f : Font) (fs ox oy : ℚ) (t : Image) (hbpp : t.bpp = 3)
    (hempty : buildGlyphShape f gid = []) :
    skb_rasterizer_draw_msdf_glyph lib ra ta gid (some f) fs ox oy (some t)
      = (true, some (memsetZero (t.width * t.height * 3) t.buffer)) := by
  simp [skb_rasterizer_draw_msdf_glyph, hbpp, List.isEmpty_iff, hempty]

/-! ## Helper lemmas on quantization -/

theorem quantizeByte_pos (r : ℚ) (hr : 0 < r) : 127 < quantizeByte r := by
  unfold quantizeByte skb_clampf
  have hlt : (1 : ℚ) / 2 < 1 / 2 + r * (1 / 2) := by nlinarith
  have hmax : max (1 / 2 + r * (1 / 2)) 0 = 1 / 2 + r * (1 / 2) := by
    rw [max_eq_left]; linarith
  rw [hmax]
  have hclamp : (1 : ℚ) / 2 < min (1 / 2 + r * (1 / 2)) 1 := lt_min hlt (by norm_num)
  have hfloor : (128 : ℤ) ≤ ⌊min (1 / 2 + r * (1 / 2)) 1 * 255 + 1 / 2⌋ := by
    rw [Int.le_floor]
    push_cast
    nlinarith
  omega

theorem quantizeByte_neg (r : ℚ) (hr : r < 0) : quantizeByte r < 128 := by
  unfold quantizeByte skb_clampf
  have hlt : 1 / 2 + r * (1 / 2) < (1 : ℚ) / 2 := by nlinarith
  have hmax : max (1 / 2 + r * (1 / 2)) 0 < (1 : ℚ) / 2 :=
    max_lt hlt (by norm_num)
  have hmin : min (max (1 / 2 + r * (1 / 2)) 0) 1 < (1 : ℚ) / 2 :=
    lt_of_le_of_lt (min_le_left _ _) hmax
  have hfloor : ⌊min (max (1 / 2 + r * (1 / 2)) 0) 1 * 255 + 1 / 2⌋ < (128 : ℤ) := by
    rw [Int.floor_lt]
    push_cast
    nlinarith
  omega

/-! ## Helper lemmas on shape building -/

theorem runCmds_no_draw (cmds : List PathCmd) (ctx : MsdfBuildContext)
    (hnd : ∀ c ∈ cmds, isDraw c = false) :
    (runCmds cmds ctx).contours
      = ctx.contours ++ List.replicate (countMoveTo cmds) [] := by
  induction cmds generalizing ctx with
  | nil => simp [runCmds, countMoveTo]
  | cons cmd rest ih =>
    have hrest : ∀ c ∈ rest, isDraw c = false := fun c hc => hnd c (List.mem_cons_of_mem _ hc)
    cases cmd with
    | moveTo x y =>
      show (runCmds rest (msdf_move_to ctx x y)).contours = _
      rw [ih _ hrest]
      simp only [msdf_move_to, countMoveTo, isMoveTo, List.countP_cons, List.append_assoc,
        List.cons_append, List.nil_append, if_pos rfl, List.replicate_succ']
      simp [← List.replicate_succ, List.replicate_succ']
    | closePath =>
      show (runCmds rest (msdf_close_path ctx)).contours = _
      rw [ih _ hrest]
      simp [msdf_close_path, countMoveTo, isMoveTo, List.countP_cons]
    | lineTo x y =>
      have := hnd (.lineTo x y) (List.mem_cons_self _ _)
      simp [isDraw] at this
    | quadTo cx cy x y =>
      have := hnd (.quadTo cx cy x y) (List.mem_cons_self _ _)
      simp [isDraw] at this
    | cubicTo c1x c1y c2x c2y x y =>
      have := hnd (.cubicTo c1x c1y c2x c2y x y) (List.mem_cons_self _ _)
      simp [isDraw] at this

/-! ## Claim theorems -/

/-- C3: the rasterizer returns false if and only if a precondition is
violated (font null, target null, or bytes-per-pixel not 3); on such a
failure the target buffer is returned unwritten, and in every other case it
returns true. -/
theorem claim_C3 (lib : MsdfLib) (ra ta : Option Unit) (gid : ℕ) (font : Option Font)
    (fs ox oy : ℚ) (target : Option Image) :
    ((skb_rasterizer_draw_msdf_glyph lib ra ta gid font fs ox oy target).1 = false ↔
       font = none ∨ target = none ∨ ∃ t, target = some t ∧ t.bpp ≠ 3) ∧
    ((skb_rasterizer_draw_msdf_glyph lib ra ta gid font fs ox oy target).1 = false →
       (skb_rasterizer_draw_msdf_glyph lib ra ta gid font fs ox oy target).2
         = target.map Image.buffer) := by
  cases font with
  | none => cases target <;> simp [skb_rasterizer_draw_msdf_glyph]
  | some f =>
    cases target with
    | none => simp [skb_rasterizer_draw_msdf_glyph]
    | some t =>
      by_cases hbpp : t.bpp = 3
      · cases hsh : (buildGlyphShape f gid).isEmpty <;>
          simp [skb_rasterizer_draw_msdf_glyph, hbpp, hsh]
      · simp [skb_rasterizer_draw_msdf_glyph, hbpp]

/-- C3 witness: a 4-bytes-per-pixel target makes the call fail and leaves the
buffer untouched. -/
theorem claim_C3_witness :
    (skb_rasterizer_draw_msdf_glyph constOneLib none none 0 (some dotFont) 1 0 0
        (some bpp4Target)).1 = false ∧
    (skb_rasterizer_draw_msdf_glyph constOneLib none none 0 (some dotFont) 1 0 0
        (some bpp4Target)).2 = some bpp4Target.buffer := by
  have h := claim_C3 constOneLib none none 0 (some dotFont) 1 0 0 (some bpp4Target)
  have hf : (skb_rasterizer_draw_msdf_glyph constOneLib none none 0 (some dotFont) 1 0 0
      (some bpp4Target)).1 = false :=
    h.1.mpr (Or.inr (Or.inr ⟨bpp4Target, rfl, by norm_num [bpp4Target]⟩))
  exact ⟨hf, (h.2 hf).trans rfl⟩

/-- C5: the projection maps a font-unit coordinate `(fx, fy)` to
`(s*fx + offset_x, -s*fy + offset_y)` with `s = font_size * upem_scale`; the
horizontal scale is positive and the vertical scale negative for positive
sizes. -/
theorem claim_C5 (font_size upem_scale offset_x offset_y fx fy : ℚ)
    (h : msdfScale font_size upem_scale ≠ 0) :
    (msdfProjection (msdfScale font_size upem_scale) offset_x offset_y).project (fx, fy)
      = (msdfScale font_size upem_scale * fx + offset_x,
         -(msdfScale font_size upem_scale) * fy + offset_y) ∧
    (0 < font_size → 0 < upem_scale →
      0 < (msdfProjection (msdfScale font_size upem_scale) offset_x offset_y).scale.1 ∧
      (msdfProjection (msdfScale font_size upem_scale) offset_x offset_y).scale.2 < 0) := by
  constructor
  · unfold msdfProjection Projection.project
    simp only [Prod.mk.injEq]
    constructor
    · field_simp
      ring
    · field_simp
      ring
  · intro h1 h2
    constructor
    · exact mul_pos h1 h2
    · simpa [msdfProjection] using neg_neg_of_pos (mul_pos h1 h2)

/-- C5 witness: at `font_size = 2`, `upem_scale = 1`, offsets `(5, 7)`, the
point `(1, 1)` projects to `(2*1 + 5, -2*1 + 7)` and the scales have the
claimed signs. -/
theorem claim_C5_witness :
    (msdfProjection (msdfScale 2 1) 5 7).project (1, 1)
      = (msdfScale 2 1 * 1 + 5, -(msdfScale 2 1) * 1 + 7) ∧
    0 < (msdfProjection (msdfScale 2 1) 5 7).scale.1 ∧
    (msdfProjection (msdfScale 2 1) 5 7).scale.2 < 0 := by
  have h := claim_C5 2 1 5 7 1 1 (by norm_num [msdfScale])
  exact ⟨h.1, h.2 (by norm_num) (by norm_num)⟩

/-- C6: the distance range is `pxRange / scale` with `pxRange = 4` fixed;
doubling the font size halves the range, and range times scale is the
constant pixel width 4. -/
theorem claim_C6 (font_size upem_scale : ℚ) (h : msdfScale font_size upem_scale ≠ 0) :
    msdfRange (msdfScale (2 * font_size) upem_scale)
      = msdfRange (msdfScale font_size upem_scale) / 2 ∧
    msdfRange (msdfScale font_size upem_scale) * msdfScale font_size upem_scale
      = msdfPxRange ∧
    msdfPxRange = 4 := by
  unfold msdfRange msdfScale msdfPxRange at *
  refine ⟨?_, ?_, rfl⟩
  · rw [show 2 * font_size * upem_scale = 2 * (font_size * upem_scale) by ring, div_div,
      mul_comm 2 (font_size * upem_scale)]
  · exact div_mul_cancel₀ 4 h

/-- C6 witness: at `font_size = 2`, `upem_scale = 1`, the range halves when
the size doubles and multiplies back to the pixel constant. -/
theorem claim_C6_witness :
    msdfRange (msdfScale (2 * 2) 1) = msdfRange (msdfScale 2 1) / 2 ∧
    msdfRange (msdfScale 2 1) * msdfScale 2 1 = msdfPxRange := by
  have h := claim_C6 2 1 (by norm_num [msdfScale])
  exact ⟨h.1, h.2.1⟩

/-- C7: the rasterizer's output is a function of its inputs alone, and the
edge-coloring seed is the fixed constant 3, so two msdfgen instances whose
coloring agrees at seed 3 (and agree on normalization and generation) give
byte-identical results on every call. -/
theorem claim_C7 (lib1 lib2 : MsdfLib) (hn : lib1.normalize = lib2.normalize)
    (hg : lib1.generateMSDF = lib2.generateMSDF)
    (hc : ∀ sh, lib1.edgeColoringSimple sh 3 = lib2.edgeColoringSimple sh 3)
    (ra ta : Option Unit) (gid : ℕ) (font : Option Font) (fs ox oy : ℚ)
    (target : Option Image) :
    skb_rasterizer_draw_msdf_glyph lib1 ra ta gid font fs ox oy target
      = skb_rasterizer_draw_msdf_glyph lib2 ra ta gid font fs ox oy target := by
  cases font <;> cases target <;>
    simp [skb_rasterizer_draw_msdf_glyph, msdfGenerateBranch, msdfRaw, hn, hg, hc]

/-- C7 witness: an msdfgen instance whose coloring is scrambled at every seed
other than 3 produces the identical output buffer on a concrete call. -/
theorem claim_C7_witness :
    skb_rasterizer_draw_msdf_glyph constOneLib none none 0 (some dotFont) 1 0 0
        (some smallTarget)
      = skb_rasterizer_draw_msdf_glyph offSeedLib none none 0 (some dotFont) 1 0 0
        (some smallTarget) := by
  apply claim_C7
  · rfl
  · rfl
  · intro sh
    simp [constOneLib, offSeedLib]

/-- C8: line/quad/cubic events with no open contour are ignored; with an open
contour each appends the corresponding edge from the current point to the
event's endpoint onto the open (last) contour and updates the current
point. -/
theorem claim_C8 (ctx : MsdfBuildContext) (c1x c1y c2x c2y x y : ℚ) :
    (ctx.contourOpen = false →
      msdf_line_to ctx x y = ctx ∧
      msdf_quadratic_to ctx c1x c1y x y = ctx ∧
      msdf_cubic_to ctx c1x c1y c2x c2y x y = ctx) ∧
    (ctx.contourOpen = true →
      ((msdf_line_to ctx x y).contours
          = updateLast (· ++ [Edge.linear ctx.lastPoint (x, y)]) ctx.contours ∧
        (msdf_line_to ctx x y).lastPoint = (x, y)) ∧
      ((msdf_quadratic_to ctx c1x c1y x y).contours
          = updateLast (· ++ [Edge.quadratic ctx.lastPoint (c1x, c1y) (x, y)]) ctx.contours ∧
        (msdf_quadratic_to ctx c1x c1y x y).lastPoint = (x, y)) ∧
      ((msdf_cubic_to ctx c1x c1y c2x c2y x y).contours
          = updateLast
              (· ++ [Edge.cubic ctx.lastPoint (c1x, c1y) (c2x, c2y) (x, y)]) ctx.contours ∧
        (msdf_cubic_to ctx c1x c1y c2x c2y x y).lastPoint = (x, y))) := by
  constructor <;> intro h <;>
    simp [msdf_line_to, msdf_quadratic_to, msdf_cubic_to, h]

/-- C8 witness: a `LineTo` before any `MoveTo` is ignored, and after a
`MoveTo` it updates the current point. -/
theorem claim_C8_witness :
    msdf_line_to initBuildContext 1 2 = initBuildContext ∧
    (msdf_line_to (msdf_move_to initBuildContext 0 0) 1 2).lastPoint = (1, 2) := by
  have h1 := claim_C8 initBuildContext 0 0 0 0 1 2
  have h2 := claim_C8 (msdf_move_to initBuildContext 0 0) 0 0 0 0 1 2
  exact ⟨(h1.1 rfl).1, ((h2.2 rfl).1).2⟩

/-- C9: every `MoveTo` adds a contour, so a stream of `MoveTo`s (and
`ClosePath`s) with no drawing commands builds one zero-edge contour per
`MoveTo`; the shape is non-empty and the rasterizer takes the
field-generation branch, not the zero-fill branch. -/
theorem claim_C9 (lib : MsdfLib) (ra ta : Option Unit) (gid : ℕ) (f : Font)
    (fs ox oy : ℚ) (t : Image) (hbpp : t.bpp = 3)
    (hnd : ∀ c ∈ f.glyphCommands gid, isDraw c = false)
    (hmv : ∃ c ∈ f.glyphCommands gid, isMoveTo c = true) :
    buildGlyphShape f gid = List.replicate (countMoveTo (f.glyphCommands gid)) [] ∧
    buildGlyphShape f gid ≠ [] ∧
    skb_rasterizer_draw_msdf_glyph lib ra ta gid (some f) fs ox oy (some t)
      = (true, some (msdfGenerateBranch lib f gid fs ox oy t)) := by
  have h1 : buildGlyphShape f gid
      = List.replicate (countMoveTo (f.glyphCommands gid)) [] := by
    unfold buildGlyphShape
    rw [runCmds_no_draw _ _ hnd]
    simp [initBuildContext]
  have hpos : 0 < countMoveTo (f.glyphCommands gid) := by
    obtain ⟨c, hc, hm⟩ := hmv
    exact List.countP_pos.mpr ⟨c, hc, hm⟩
  have h2 : buildGlyphShape f gid ≠ [] := by
    rw [h1]
    simp only [ne_eq, List.replicate_eq_nil]
    omega
  exact ⟨h1, h2, rasterizer_nonempty_branch lib ra ta gid f fs ox oy t hbpp h2⟩

/-- C9 witness: a stream of two `MoveTo`s and a `ClosePath` yields two
zero-edge contours and a successful generation-branch call. -/
theorem claim_C9_witness :
    buildGlyphShape twoMoveFont 0 = [[], []] ∧
    (skb_rasterizer_draw_msdf_glyph constOneLib none none 0 (some twoMoveFont) 1 0 0
        (some smallTarget)).1 = true := by
  have h := claim_C9 constOneLib none none 0 twoMoveFont 1 0 0 smallTarget rfl
    (by simp [twoMoveFont, isDraw])
    ⟨PathCmd.moveTo 0 0, by simp [twoMoveFont], rfl⟩
  refine ⟨h.1.trans rfl, ?_⟩
  rw [h.2.2]

/-- C2: a zero-contour shape makes the rasterizer zero the first
`width*height*3` contiguous bytes of the target (stride-agnostic), leave the
rest untouched, perform no edge coloring or field generation (the result is
the same for every msdfgen instance), and return true. -/
theorem claim_C2 (lib lib2 : MsdfLib) (ra ta : Option Unit) (gid : ℕ) (f : Font)
    (fs ox oy : ℚ) (t : Image) (hbpp : t.bpp = 3)
    (hempty : buildGlyphShape f gid = []) :
    skb_rasterizer_draw_msdf_glyph lib ra ta gid (some f) fs ox oy (some t)
        = (true, some (memsetZero (t.width * t.height * 3) t.buffer)) ∧
    (∀ i, i < t.width * t.height * 3 →
      memsetZero (t.width * t.height * 3) t.buffer i = 0) ∧
    (∀ i, t.width * t.height * 3 ≤ i →
      memsetZero (t.width * t.height * 3) t.buffer i = t.buffer i) ∧
    skb_rasterizer_draw_msdf_glyph lib ra ta gid (some f) fs ox oy (some t)
      = skb_rasterizer_draw_msdf_glyph lib2 ra ta gid (some f) fs ox oy (some t) := by
  refine ⟨rasterizer_empty_branch lib ra ta gid f fs ox oy t hbpp hempty, ?_, ?_, ?_⟩
  · intro i hi
    simp [memsetZero, hi]
  · intro i hi
    simp [memsetZero, Nat.not_lt.mpr hi]
  · rw [rasterizer_empty_branch lib ra ta gid f fs ox oy t hbpp hempty,
      rasterizer_empty_branch lib2 ra ta gid f fs ox oy t hbpp hempty]

/-- C2 witness: a glyph with no outline commands on a 2×1 target zeroes the
6-byte region and leaves byte 6 at its sentinel. -/
theorem claim_C2_witness :
    skb_rasterizer_draw_msdf_glyph constOneLib none none 0 (some emptyFont) 1 0 0
        (some wideTarget)
      = (true, some (memsetZero (wideTarget.width * wideTarget.height * 3)
          wideTarget.buffer)) ∧
    memsetZero (wideTarget.width * wideTarget.height * 3) wideTarget.buffer 5 = 0 ∧
    memsetZero (wideTarget.width * wideTarget.height * 3) wideTarget.buffer 6 = 9 := by
  have h := claim_C2 constOneLib rowLib none none 0 emptyFont 1 0 0 wideTarget rfl rfl
  refine ⟨h.1, h.2.1 5 (by norm_num [wideTarget]), (h.2.2.1 6 (by norm_num [wideTarget])).trans rfl⟩

/-- C1 counterexample: with row stride 2 smaller than `width*3 = 3`, the
write for pixel (0,1) overlaps pixel (0,0), so the stored byte for pixel
(0,0), channel 2 ends up 0 even though the claimed remap of its raw sample
is 255: the claim's per-pixel formula fails as stated for such calls. -/
theorem claim_C1_counterexample :
    (skb_rasterizer_draw_msdf_glyph rowLib none none 0 (some dotFont) 1 0 0
        (some tightTarget)).1 = true ∧
    ((skb_rasterizer_draw_msdf_glyph rowLib none none 0 (some dotFont) 1 0 0
        (some tightTarget)).2.map (fun b => b (0 * rowStride tightTarget + 0 * 3 + 2)))
      = some 0 ∧
    quantizeByte (msdfRaw rowLib dotFont 0 1 0 0 tightTarget 0 0 2) = 255 := by
  have hne : buildGlyphShape dotFont 0 ≠ [] := by
    simp [buildGlyphShape, runCmds, applyCmd, msdf_move_to, initBuildContext, dotFont]
  have hcall := rasterizer_nonempty_branch rowLib none none 0 dotFont 1 0 0 tightTarget rfl hne
  refine ⟨by rw [hcall], ?_, ?_⟩
  · rw [hcall]
    have e : msdfGenerateBranch rowLib dotFont 0 1 0 0 tightTarget
        = writePixel 2 0 1
            (fun c => quantizeByte (msdfRaw rowLib dotFont 0 1 0 0 tightTarget 0 1 c))
            (writePixel 2 0 0
              (fun c => quantizeByte (msdfRaw rowLib dotFont 0 1 0 0 tightTarget 0 0 c))
              tightTarget.buffer) := rfl
    rw [e]
    norm_num [writePixel, updateByte, rowStride, tightTarget, msdfRaw, rowLib, quantizeByte,
      skb_clampf]
  · norm_num [msdfRaw, rowLib, quantizeByte, skb_clampf]
    decide

/-- C1 (amended): for calls reaching quantization whose effective row stride
is at least `width*3` (so pixel writes do not overlap), the stored byte for
pixel (x,y), channel c is `clamp(0.5 + r*0.5, 0, 1) * 255 + 0.5` truncated,
where r is the raw generated sample; positive samples store bytes above 127
(inside), negative samples below 128 (outside). -/
theorem claim_C1 (lib : MsdfLib) (ra ta : Option Unit) (gid : ℕ) (f : Font)
    (fs ox oy : ℚ) (t : Image) (hbpp : t.bpp = 3)
    (hne : buildGlyphShape f gid ≠ []) (hrs : 3 * t.width ≤ rowStride t)
    (x y : ℕ) (c : Fin 3) (hx : x < t.width) (hy : y < t.height) :
    ∃ buf, skb_rasterizer_draw_msdf_glyph lib ra ta gid (some f) fs ox oy (some t)
        = (true, some buf) ∧
      buf (y * rowStride t + x * 3 + c)
        = quantizeByte (msdfRaw lib f gid fs ox oy t x y c) ∧
      (0 < msdfRaw lib f gid fs ox oy t x y c →
        127 < buf (y * rowStride t + x * 3 + c)) ∧
      (msdfRaw lib f gid fs ox oy t x y c < 0 →
        buf (y * rowStride t + x * 3 + c) < 128) := by
  have hbuf : msdfGenerateBranch lib f gid fs ox oy t (y * rowStride t + x * 3 + c)
      = quantizeByte (msdfRaw lib f gid fs ox oy t x y c) :=
    writeAll_apply_channel (rowStride t) t.width
      (fun x y c => quantizeByte (msdfRaw lib f gid fs ox oy t x y c))
      t.buffer t.height x y c hx hy hrs
  refine ⟨msdfGenerateBranch lib f gid fs ox oy t,
    rasterizer_nonempty_branch lib ra ta gid f fs ox oy t hbpp hne, hbuf, ?_, ?_⟩
  · intro hpos
    rw [hbuf]
    exact quantizeByte_pos _ hpos
  · intro hneg
    rw [hbuf]
    exact quantizeByte_neg _ hneg

/-- C1 witness: a constant raw sample 1 on a 1×1 target with stride 5 stores
byte 255 at offset 0. -/
theorem claim_C1_witness :
    ∃ buf, skb_rasterizer_draw_msdf_glyph constOneLib none none 0 (some dotFont) 1 0 0
        (some smallTarget) = (true, some buf) ∧ buf 0 = 255 := by
  obtain ⟨buf, h1, h2, -, -⟩ := claim_C1 constOneLib none none 0 dotFont 1 0 0 smallTarget rfl
    (by simp [buildGlyphShape, runCmds, applyCmd, msdf_move_to, initBuildContext, dotFont])
    (by decide) 0 0 0 (by decide) (by decide)
  refine ⟨buf, h1, ?_⟩
  have haddr : (0 * rowStride smallTarget + 0 * 3 + ((0 : Fin 3) : ℕ)) = 0 := by simp
  rw [haddr] at h2
  rw [h2]
  norm_num [msdfRaw, constOneLib, quantizeByte, skb_clampf]
  decide

/-- C4 counterexample: a successful empty-shape call zero-fills
`width*height*3` contiguous bytes, clobbering the row-0 padding byte at
offset 3 (stride 4 > width*3 = 3, sentinel 7 becomes 0): the claim fails as
stated for the zero-fill branch. -/
theorem claim_C4_counterexample :
    (skb_rasterizer_draw_msdf_glyph constOneLib none none 0 (some emptyFont) 1 0 0
        (some padTarget)).1 = true ∧
    ((padTarget.width * 3 : ℤ) < padTarget.stride_bytes) ∧
    padTarget.width * 3 ≤ 3 ∧ 3 < rowStride padTarget ∧
    padTarget.buffer (0 * rowStride padTarget + 3) = 7 ∧
    ((skb_rasterizer_draw_msdf_glyph constOneLib none none 0 (some emptyFont) 1 0 0
        (some padTarget)).2.map (fun b => b (0 * rowStride padTarget + 3))) = some 0 := by
  have hcall := rasterizer_empty_branch constOneLib none none 0 emptyFont 1 0 0 padTarget rfl rfl
  refine ⟨by rw [hcall], by decide, by decide, by decide, rfl, ?_⟩
  rw [hcall]
  simp [memsetZero, rowStride, padTarget]

/-- C4 (amended): for successful calls taking the field-generation branch
with `stride_bytes > width*3`, the padding bytes at offsets
`[width*3, stride)` of every row are untouched, and each pixel's three
quantized bytes land at `y*row_stride + x*3`, with `row_stride` equal to the
(positive) `stride_bytes`. -/
theorem claim_C4 (lib : MsdfLib) (ra ta : Option Unit) (gid : ℕ) (f : Font)
    (fs ox oy : ℚ) (t : Image) (hbpp : t.bpp = 3)
    (hne : buildGlyphShape f gid ≠ [])
    (hstr : (t.width * 3 : ℤ) < t.stride_bytes) :
    rowStride t = t.stride_bytes.toNat ∧
    ∃ buf, skb_rasterizer_draw_msdf_glyph lib ra ta gid (some f) fs ox oy (some t)
        = (true, some buf) ∧
      (∀ y o, t.width * 3 ≤ o → o < rowStride t →
        buf (y * rowStride t + o) = t.buffer (y * rowStride t + o)) ∧
      (∀ x y (c : Fin 3), x < t.width → y < t.height →
        buf (y * rowStride t + x * 3 + c)
          = quantizeByte (msdfRaw lib f gid fs ox oy t x y c)) := by
  have h0 : 0 < t.stride_bytes := by omega
  have hrs : rowStride t = t.stride_bytes.toNat := by simp [rowStride, h0]
  have hge : 3 * t.width ≤ rowStride t := by rw [hrs]; omega
  refine ⟨hrs, msdfGenerateBranch lib f gid fs ox oy t,
    rasterizer_nonempty_branch lib ra ta gid f fs ox oy t hbpp hne, ?_, ?_⟩
  · intro y o ho1 ho2
    exact writeAll_apply_padding (rowStride t) t.width
      (fun x y c => quantizeByte (msdfRaw lib f gid fs ox oy t x y c))
      t.buffer t.height y o (by omega) ho2
  · intro x y c hx hy
    exact writeAll_apply_channel (rowStride t) t.width
      (fun x y c => quantizeByte (msdfRaw lib f gid fs ox oy t x y c))
      t.buffer t.height x y c hx hy hge

/-- C4 witness: on a 1×2 target with stride 4 the padding byte at offset 3
keeps its sentinel 7 while pixel (0,0) stores 255 at offset 0. -/
theorem claim_C4_witness :
    ∃ buf, skb_rasterizer_draw_msdf_glyph constOneLib none none 0 (some dotFont) 1 0 0
        (some padTarget) = (true, some buf) ∧ buf 3 = 7 ∧ buf 0 = 255 := by
  obtain ⟨hrs, buf, h1, hpad, hpix⟩ := claim_C4 constOneLib none none 0 dotFont 1 0 0 padTarget
    rfl
    (by simp [buildGlyphShape, runCmds, applyCmd, msdf_move_to, initBuildContext, dotFont])
    (by decide)
  refine ⟨buf, h1, ?_, ?_⟩
  · have h := hpad 0 3 (by decide) (by decide)
    simpa [padTarget] using h
  · have h := hpix 0 0 0 (by decide) (by decide)
    have h2 : quantizeByte (msdfRaw constOneLib dotFont 0 1 0 0 padTarget 0 0 0) = 255 := by
      norm_num [msdfRaw, constOneLib, quantizeByte, skb_clampf]
      decide
    simpa [h2] using h

/-- C10: the return value and every written byte are independent of the
`rasterizer` and `temp_alloc` arguments, including null ones. -/
theorem claim_C10 (lib : MsdfLib) (r1 r2 a1 a2 : Option Unit) (gid : ℕ)
    (font : Option Font) (fs ox oy : ℚ) (target : Option Image) :
    skb_rasterizer_draw_msdf_glyph lib r1 a1 gid font fs ox oy target
      = skb_rasterizer_draw_msdf_glyph lib r2 a2 gid font fs ox oy target := rfl

end Skb
